import Mathlib

/-!
Verification of the MCP_server repository's tool-call orchestration system.

This file shallowly embeds the Python source:
  * `MCP_server.py` (root variant) and `mcp_server/MCP_server.py`
    (deployed variant): the shapes-database query tools;
  * `mcp_client.py`: model fallback (`create_chat_session`,
    `safe_send_message`) and the CLI tool-dispatch loop of `llm_mode`;
  * `agent_server.py`: the `/chat` endpoint's dispatch loop, the client-tool
    interception, and the legacy free-text command scraping;
  * `mcp_server/_mcp_be.py`: the recursive schema translator and the
    streaming `chat_process` generator (Gemini / Groq / OpenAI paths).

Python dicts are modelled as insertion-ordered association lists, JSON
values as an inductive type, machine iteration as structural recursion
(with explicit fuel where the source loop is `while True`), and external
effects (the model, remote tool calls, connections) as explicit
environment functions supplied to the loop.
-/

/-- JSON values, as produced by Python's `json.loads` and passed around as
tool arguments / command payloads.  Numbers are modelled as integers
(the repository's data uses integer ids, diameters and counts). -/
inductive Json where
  | null : Json
  | bool (b : Bool) : Json
  | num (n : Int) : Json
  | str (s : String) : Json
  | arr (elems : List Json) : Json
  | obj (fields : List (String × Json)) : Json
  deriving Repr

mutual

/-- Structural equality of JSON values (Python `==` on parsed JSON data). -/
def Json.beq : Json → Json → Bool
  | .null, .null => true
  | .bool a, .bool b => a == b
  | .num a, .num b => a == b
  | .str a, .str b => a == b
  | .arr xs, .arr ys => Json.beqList xs ys
  | .obj fs, .obj gs => Json.beqFields fs gs
  | _, _ => false

/-- Elementwise equality of JSON arrays. -/
def Json.beqList : List Json → List Json → Bool
  | [], [] => true
  | x :: xs, y :: ys => Json.beq x y && Json.beqList xs ys
  | _, _ => false

/-- Fieldwise equality of JSON objects (order-sensitive, like comparing
the underlying parse events; sufficient for the concrete values compared
in this development). -/
def Json.beqFields : List (String × Json) → List (String × Json) → Bool
  | [], [] => true
  | (k, v) :: xs, (l, w) :: ys => k == l && Json.beq v w && Json.beqFields xs ys
  | _, _ => false

end

instance : BEq Json := ⟨Json.beq⟩

/-- Python `d[k] = v` on an insertion-ordered dict: replace in place if the
key exists, else append. -/
def dictSet (d : List (String × Json)) (k : String) (v : Json) :
    List (String × Json) :=
  if d.any (fun kv => kv.1 = k) then
    d.map (fun kv => if kv.1 = k then (k, v) else kv)
  else d ++ [(k, v)]

/-- Python `d.update(kvs)` on an insertion-ordered dict. -/
def dictUpdate (d : List (String × Json)) (kvs : List (String × Json)) :
    List (String × Json) :=
  kvs.foldl (fun acc kv => dictSet acc kv.1 kv.2) d

/-- Python list slicing `l[:n]` where `n` may be negative
(`l[:-k]` drops the last `k` elements). -/
def pyTake (l : List α) (n : Int) : List α :=
  if n < 0 then l.take (l.length - (-n).toNat) else l.take n.toNat

/-- Python `min` on two ints. -/
def pyMin (a b : Int) : Int := if a ≤ b then a else b

/-- A vertex entry of a shape record; `x`/`y` may be absent
(the source reads them with `v.get('x', 0)`). -/
structure Vertex where
  xc : Option Int
  yc : Option Int
  deriving Repr, DecidableEq

/-- One record of the shapes database (`39_shapes.json`).  Every field the
query tools read with `.get` is optional when the source supplies a
non-trivial default or checks for `None`. -/
structure Shape where
  id : Option Int
  shape_name : Option String
  pipe_id : Option Int
  dnList : List Int
  object_type : Option String
  sprinklerType : Option String
  arm : Option Int
  vertices : List Vertex
  connectors : List Int
  deriving Repr, DecidableEq

/-- The in-memory shapes database: the module-level `shapes_database` list. -/
abbrev ShapesDB := List Shape

namespace RootServer

/-! Embedding of the query tools of the root `MCP_server.py`. -/

/-- A summary entry built by `count_objects` (root variant): the
`objects_with_vertices` element for one filtered shape. -/
structure CountedObject where
  id : Option Int
  shape_name : String
  vertices : List Vertex
  deriving Repr, DecidableEq

/-- Result of the root `count_objects` tool. -/
structure CountResult where
  total_count : Nat
  shape_breakdown : List (String × Nat)
  objects : List CountedObject
  deriving Repr, DecidableEq

/-- The `shape.get('shape_name', 'Unknown')`. -/
def snameD (s : Shape) : String := s.shape_name.getD ("Unknown")

/-- The `counts[sname] = counts.get(sname, 0) + 1` on an insertion-ordered
counter dict. -/
def bumpCount (d : List (String × Nat)) (k : String) : List (String × Nat) :=
  if d.any (fun kv => kv.1 = k) then
    d.map (fun kv => if kv.1 = k then (kv.1, kv.2 + 1) else kv)
  else d ++ [(k, 1)]

/-- The common filter prefix of `count_objects` / `find_objects`:
`shape_name`, `pipe_id` and `dn` filters applied in order.
(`if shape_name:` is truthiness — the empty string is falsy.) -/
def applyBaseFilters (db : ShapesDB) (shape_name : Option String)
    (pipe_id : Option Int) (dn : Option Int) : List Shape :=
  let f1 := match shape_name with
    | some n => if n = "" then db else db.filter (fun s => s.shape_name = some n)
    | none => db
  let f2 := match pipe_id with
    | some p => f1.filter (fun s => s.pipe_id = some p)
    | none => f1
  match dn with
  | some d => f2.filter (fun s => s.dnList.contains d)
  | none => f2

/-- Root `count_objects(shape_name, pipe_id, dn, object_type)`:
filters the database and returns the total count, a per-shape-name
breakdown, and the full (uncapped) list of matching objects with their
vertices. -/
def count_objects (db : ShapesDB) (shape_name : Option String)
    (pipe_id : Option Int) (dn : Option Int) (object_type : Option String) :
    CountResult :=
  let f3 := applyBaseFilters db shape_name pipe_id dn
  let filtered := match object_type with
    | some t => if t = "" then f3 else f3.filter (fun s => s.object_type = some t)
    | none => f3
  { total_count := filtered.length
    shape_breakdown := filtered.foldl (fun d s => bumpCount d (snameD s)) []
    objects := filtered.map (fun s =>
      { id := s.id, shape_name := snameD s, vertices := s.vertices }) }

/-- An entry of the root `find_objects` result list. -/
structure FoundObject where
  id : Option Int
  shape_name : Option String
  object_type : Option String
  pipe_id : Option Int
  dnList : List Int
  sprinklerType : Option String
  vertices : List Vertex
  connectors_count : Nat
  deriving Repr, DecidableEq

/-- Result of the root `find_objects` tool. -/
structure FindResult where
  found : Nat
  returned : Nat
  results : List FoundObject
  deriving Repr, DecidableEq

/-- Root `find_objects(shape_name, pipe_id, dn, limit=50)`: filters, then
truncates at the caller-supplied `limit` (`filtered[:limit]`) with no
further cap. -/
def find_objects (db : ShapesDB) (shape_name : Option String)
    (pipe_id : Option Int) (dn : Option Int) (limit : Int := 50) : FindResult :=
  let filtered := applyBaseFilters db shape_name pipe_id dn
  let results := (pyTake filtered limit).map (fun s =>
    { id := s.id, shape_name := s.shape_name, object_type := s.object_type
      pipe_id := s.pipe_id, dnList := s.dnList, sprinklerType := s.sprinklerType
      vertices := s.vertices, connectors_count := s.connectors.length })
  { found := filtered.length, returned := results.length, results := results }

/-- Root `get_object_by_id(object_id)`: linear scan, first match or `None`. -/
def get_object_by_id (db : ShapesDB) (object_id : Int) : Option Shape :=
  db.find? (fun s => s.id = some object_id)

/-- Bounding box computed by `get_object_locations`. -/
structure BBox where
  min_x : Int
  max_x : Int
  min_y : Int
  max_y : Int
  deriving Repr, DecidableEq

/-- Python `min` over a nonempty int list (head-seeded fold). -/
def pyListMin : List Int → Int
  | [] => 0
  | x :: r => r.foldl min x

/-- Python `max` over a nonempty int list (head-seeded fold). -/
def pyListMax : List Int → Int
  | [] => 0
  | x :: r => r.foldl max x

/-- An entry of the `get_object_locations` result list. -/
structure LocationEntry where
  id : Option Int
  shape_name : Option String
  vertices_count : Nat
  connectors_count : Nat
  bbox : Option BBox
  vertices : List Vertex
  deriving Repr, DecidableEq

/-- Result of `get_object_locations`. -/
structure LocationsResult where
  found : Nat
  returned : Nat
  results : List LocationEntry
  deriving Repr, DecidableEq

/-- The `get_object_locations(shape_name, limit=20)` (same body in both server
variants): optional shape-name filter, truncation at the caller-supplied
`limit`, per-entry bounding box and a ≤ 5-vertex preview. -/
def get_object_locations (db : ShapesDB) (shape_name : Option String)
    (limit : Int := 20) : LocationsResult :=
  let filtered := match shape_name with
    | some n => if n = "" then db else db.filter (fun s => s.shape_name = some n)
    | none => db
  let results := (pyTake filtered limit).map (fun s =>
    let xs := s.vertices.map (fun v => v.xc.getD 0)
    let ys := s.vertices.map (fun v => v.yc.getD 0)
    let bbox := if s.vertices.isEmpty then none else
      some { min_x := pyListMin xs, max_x := pyListMax xs
             min_y := pyListMin ys, max_y := pyListMax ys }
    { id := s.id, shape_name := s.shape_name
      vertices_count := s.vertices.length
      connectors_count := s.connectors.length
      bbox := bbox
      vertices := if s.vertices.length > 5 then s.vertices.take 5 else s.vertices })
  { found := filtered.length, returned := results.length, results := results }

/-- Result of `list_available_shapes` (root variant). -/
structure ShapesListing where
  total_objects : Nat
  shape_types : List (String × Nat)
  object_types : List (String × Nat)
  unique_pipe_ids : List Int
  unique_dn_values : List Int
  deriving Repr, DecidableEq

/-- Insert into a sorted-unique int list (models collecting into a Python
`set` and then `sorted(list(...))`). -/
def insertSortedUnique (l : List Int) (x : Int) : List Int :=
  match l with
  | [] => [x]
  | y :: r => if x < y then x :: y :: r
              else if x = y then y :: r
              else y :: insertSortedUnique r x

/-- Root `list_available_shapes()`: per-shape-name and per-object-type
counters, the sorted unique pipe ids (truthy only) and DN values;
`shape_types` is returned sorted by count, descending (stable). -/
def list_available_shapes (db : ShapesDB) : ShapesListing :=
  let shape_types := db.foldl (fun d s => bumpCount d (snameD s)) []
  let object_types := db.foldl (fun d s => bumpCount d (s.object_type.getD ("Unknown"))) []
  let pipe_ids := db.foldl (fun acc s =>
    match s.pipe_id with
    | some p => if p = 0 then acc else insertSortedUnique acc p
    | none => acc) []
  let dns := db.foldl (fun acc s => s.dnList.foldl insertSortedUnique acc) []
  { total_objects := db.length
    shape_types := shape_types.mergeSort (fun a b => b.2 ≤ a.2)
    object_types := object_types
    unique_pipe_ids := pipe_ids
    unique_dn_values := dns }

/-- Int-keyed counter bump, for the DN / pipe-id distributions. -/
def bumpCountI (d : List (Int × Nat)) (k : Int) : List (Int × Nat) :=
  if d.any (fun kv => kv.1 = k) then
    d.map (fun kv => if kv.1 = k then (kv.1, kv.2 + 1) else kv)
  else d ++ [(k, 1)]

/-- Result of `get_statistics` (same body in both server variants). -/
structure Statistics where
  total_objects : Nat
  objects_with_vertices : Nat
  objects_with_connectors : Nat
  dn_distribution : List (Int × Nat)
  pipe_id_distribution : List (Int × Nat)
  top_pipe_ids : List (Int × Nat)
  deriving Repr, DecidableEq

/-- The `get_statistics()`: totals, counts of records with nonempty vertex /
connector lists, DN and pipe-id distributions (sorted by key), and the top
ten pipe ids by count. -/
def get_statistics (db : ShapesDB) : Statistics :=
  let dn_counts := db.foldl (fun d s => s.dnList.foldl bumpCountI d) []
  let pipe_id_counts := db.foldl (fun d s =>
    match s.pipe_id with
    | some p => if p = 0 then d else bumpCountI d p
    | none => d) []
  { total_objects := db.length
    objects_with_vertices := (db.filter (fun s => !s.vertices.isEmpty)).length
    objects_with_connectors := (db.filter (fun s => !s.connectors.isEmpty)).length
    dn_distribution := dn_counts.mergeSort (fun a b => a.1 ≤ b.1)
    pipe_id_distribution := pipe_id_counts.mergeSort (fun a b => a.1 ≤ b.1)
    top_pipe_ids := (pipe_id_counts.mergeSort (fun a b => b.2 ≤ a.2)).take 10 }

/-- The `s.get('shape_name')` as a Python value (None ↦ null), for `in` tests
against JSON filter lists. -/
def shapeNameVal (s : Shape) : Json := (s.shape_name.map Json.str).getD Json.null

/-- The `s.get('pipe_id')` as a Python value. -/
def pipeIdVal (s : Shape) : Json := (s.pipe_id.map Json.num).getD Json.null

/-- The `s.get('type')` as a Python value. -/
def typeVal (s : Shape) : Json := (s.sprinklerType.map Json.str).getD Json.null

/-- An entry of the root `search_by_criteria` result list. -/
structure SearchEntry where
  id : Option Int
  shape_name : Option String
  pipe_id : Option Int
  dnList : List Int
  sprinklerType : Option String
  vertices : List Vertex
  deriving Repr, DecidableEq

/-- Result of `search_by_criteria`: either the invalid-JSON error mapping
or the filtered summary. -/
inductive SearchResult where
  | invalid
  | ok (total_matches : Nat) (returned : Nat) (results : List SearchEntry)
      (applied_filters : Json)
  deriving Repr

/-- The `filters['k'] if isinstance(filters['k'], list) else [filters['k']]`. -/
def asJsonList : Json → List Json
  | .arr l => l
  | v => [v]

/-- Apply the `search_by_criteria` filters (`shape_name`, `pipe_id`, `DN`,
`type`) to the database, given the parsed criteria object. -/
def searchFilter (db : ShapesDB) (fields : List (String × Json)) : List Shape :=
  let f1 := match fields.lookup ("shape_name") with
    | some v => db.filter (fun s => (asJsonList v).contains (shapeNameVal s))
    | none => db
  let f2 := match fields.lookup ("pipe_id") with
    | some v => f1.filter (fun s => (asJsonList v).contains (pipeIdVal s))
    | none => f1
  let f3 := match fields.lookup ("DN") with
    | some v => f2.filter (fun s =>
        (asJsonList v).any (fun dn => s.dnList.any (fun e => Json.beq dn (Json.num e))))
    | none => f2
  match fields.lookup ("type") with
  | some v => f3.filter (fun s => Json.beq (typeVal s) v)
  | none => f3

/-- Root `search_by_criteria(criteria)`.  `json.loads` is Python stdlib;
its outcome on the criteria string is passed in as `parsed` (`none` models
a parse failure, which the source turns into the `"Invalid JSON criteria"`
error mapping; a successful parse of the repository's documented criteria
format is a JSON object, given as its field list).  On success the summary
is hard-capped at the first 50 matches (`filtered[:50]`). -/
def search_by_criteria (db : ShapesDB) (parsed : Option (List (String × Json))) :
    SearchResult :=
  match parsed with
  | none => .invalid
  | some fields =>
    let filtered := searchFilter db fields
    let results := (filtered.take 50).map (fun s =>
      { id := s.id, shape_name := s.shape_name, pipe_id := s.pipe_id
        dnList := s.dnList, sprinklerType := s.sprinklerType
        vertices := s.vertices : SearchEntry })
    .ok filtered.length results.length results (Json.obj fields)

end RootServer

namespace DeployedServer

/-! Embedding of the query tools of the deployed `mcp_server/MCP_server.py`
variant, where they differ from the root variant. -/

/-- Result of the deployed `count_objects`: purely statistical, no object
list. -/
structure CountResult where
  total_count : Nat
  shape_breakdown : List (String × Nat)
  deriving Repr, DecidableEq

/-- Deployed `count_objects(shape_name, pipe_id, dn)`: same filters as the
root variant but without the `object_type` filter, and it returns no
per-object list at all. -/
def count_objects (db : ShapesDB) (shape_name : Option String)
    (pipe_id : Option Int) (dn : Option Int) : CountResult :=
  let filtered := RootServer.applyBaseFilters db shape_name pipe_id dn
  { total_count := filtered.length
    shape_breakdown := filtered.foldl (fun d s => RootServer.bumpCount d (RootServer.snameD s)) [] }

/-- An entry of the deployed `find_objects` result list (no vertices;
sprinklers additionally carry `type` and `arm`). -/
structure FoundObject where
  id : Option Int
  shape_name : Option String
  pipe_id : Option Int
  dnList : List Int
  connectors_count : Nat
  sprinklerType : Option (Option String)
  arm : Option (Option Int)
  deriving Repr, DecidableEq

/-- Result of the deployed `find_objects`. -/
structure FindResult where
  found : Nat
  returned : Nat
  results : List FoundObject
  deriving Repr, DecidableEq

/-- Deployed `find_objects(shape_name, pipe_id, dn, limit=20)`: filters,
then truncates at `safe_limit = min(limit, 50)` — a hard cap of 50 no
matter what limit the caller supplies. -/
def find_objects (db : ShapesDB) (shape_name : Option String)
    (pipe_id : Option Int) (dn : Option Int) (limit : Int := 20) : FindResult :=
  let filtered := RootServer.applyBaseFilters db shape_name pipe_id dn
  let safe_limit := pyMin limit 50
  let results := (pyTake filtered safe_limit).map (fun s =>
    let isSpr := s.shape_name = some ("Sprinkler")
    { id := s.id, shape_name := s.shape_name, pipe_id := s.pipe_id
      dnList := s.dnList, connectors_count := s.connectors.length
      sprinklerType := if isSpr then some s.sprinklerType else none
      arm := if isSpr then some s.arm else none })
  { found := filtered.length, returned := results.length, results := results }

/-- An entry of the deployed `search_by_criteria` result list
(no vertices). -/
structure SearchEntry where
  id : Option Int
  shape_name : Option String
  pipe_id : Option Int
  dnList : List Int
  sprinklerType : Option String
  deriving Repr, DecidableEq

/-- Result of the deployed `search_by_criteria`. -/
inductive SearchResult where
  | invalid
  | ok (total_matches : Nat) (returned : Nat) (results : List SearchEntry)
      (applied_filters : Json)
  deriving Repr

/-- Deployed `search_by_criteria(criteria)`: same filters as the root
variant, but the summary is hard-capped at the first 20 matches
(`filtered[:20]`). -/
def search_by_criteria (db : ShapesDB) (parsed : Option (List (String × Json))) :
    SearchResult :=
  match parsed with
  | none => .invalid
  | some fields =>
    let filtered := RootServer.searchFilter db fields
    let results := (filtered.take 20).map (fun s =>
      { id := s.id, shape_name := s.shape_name, pipe_id := s.pipe_id
        dnList := s.dnList, sprinklerType := s.sprinklerType : SearchEntry })
    .ok filtered.length results.length results (Json.obj fields)

end DeployedServer

/-- One invocation of a root-server query tool: the tool name together
with its arguments, as dispatched by `call_tool`. -/
inductive QueryCall where
  | count (shape_name : Option String) (pipe_id : Option Int) (dn : Option Int)
      (object_type : Option String)
  | find (shape_name : Option String) (pipe_id : Option Int) (dn : Option Int)
      (limit : Int)
  | byId (object_id : Int)
  | locations (shape_name : Option String) (limit : Int)
  | listShapes
  | statistics
  | search (parsed : Option (List (String × Json)))

/-- The output of one root-server query tool. -/
inductive QueryOutput where
  | count (r : RootServer.CountResult)
  | find (r : RootServer.FindResult)
  | byId (r : Option Shape)
  | locations (r : RootServer.LocationsResult)
  | listShapes (r : RootServer.ShapesListing)
  | statistics (r : RootServer.Statistics)
  | search (r : RootServer.SearchResult)

/-- Execute one query tool against the module-level `shapes_database`.
The second component is the value of that global after the call: the
translated tool bodies contain no assignment to it (each builds fresh
lists with comprehensions, `sorted`, and local accumulators), so the
post-state is the pre-state. -/
def runQuery (c : QueryCall) (db : ShapesDB) : QueryOutput × ShapesDB :=
  match c with
  | .count sn p d ot => (.count (RootServer.count_objects db sn p d ot), db)
  | .find sn p d lim => (.find (RootServer.find_objects db sn p d lim), db)
  | .byId oid => (.byId (RootServer.get_object_by_id db oid), db)
  | .locations sn lim => (.locations (RootServer.get_object_locations db sn lim), db)
  | .listShapes => (.listShapes (RootServer.list_available_shapes db), db)
  | .statistics => (.statistics (RootServer.get_statistics db), db)
  | .search parsed => (.search (RootServer.search_by_criteria db parsed), db)

/-- Number of result records in a root `search_by_criteria` outcome. -/
def RootServer.SearchResult.resultsLength : RootServer.SearchResult → Nat
  | .invalid => 0
  | .ok _ _ rs _ => rs.length

/-- Number of result records in a deployed `search_by_criteria` outcome. -/
def DeployedServer.SearchResult.resultsLength : DeployedServer.SearchResult → Nat
  | .invalid => 0
  | .ok _ _ rs _ => rs.length

/-- A featureless shape record used in concrete counterexamples. -/
def blankShape : Shape :=
  { id := none, shape_name := none, pipe_id := none, dnList := []
    object_type := none, sprinklerType := none, arm := none
    vertices := [], connectors := [] }

/-! ### The schema translators -/

/-- A provider-neutral (MCP) JSON-Schema node, as the translators read it:
a dict whose keys `type`, `description`, `properties`, `required`, `items`
may each be absent (`Option`).  `Option.none` on `properties` means the
key is missing (the source distinguishes this with `"properties" in
schema`). -/
inductive MCPSchema where
  | node (typ : Option String) (description : Option String)
      (properties : Option (List (String × MCPSchema)))
      (required : Option (List String))
      (items : Option MCPSchema)
  deriving Repr

/-- A node of the Gemini schema vocabulary as the translators build it: a
dict with a mandatory `type` string; the other keys are present exactly
when the source inserts them. -/
inductive GSchema where
  | node (typ : String) (description : Option String)
      (properties : Option (List (String × GSchema)))
      (required : Option (List String))
      (items : Option GSchema)
  deriving Repr

/-- Python `if not schema:` — true on the empty dict. -/
def MCPSchema.isEmpty : MCPSchema → Bool
  | .node t d p r i => t.isNone && d.isNone && p.isNone && r.isNone && i.isNone

/-- The chained conditional of `_mcp_be.py`'s primitive branch:
`"STRING" if typ == "string" else "INTEGER" if ... else "STRING"`. -/
def bePrimMap (typ : Option String) : String :=
  if typ = some ("string") then ("STRING")
  else if typ = some ("integer") then ("INTEGER")
  else if typ = some ("number") then ("NUMBER")
  else if typ = some ("boolean") then ("BOOLEAN")
  else ("STRING")

mutual

/-- The `convert_mcp_to_gemini_schema` of `mcp_server/_mcp_be.py`: the
recursive translator.  Empty dict ↦ `{"type": "STRING"}`; object (declared
`object` or carrying a `properties` key) ↦ OBJECT with every property
translated and the required list (no description); array ↦ ARRAY with the
translated item schema and the description; otherwise the primitive table
with the description. -/
def convert_mcp_to_gemini_schema : MCPSchema → GSchema
  | s@(.node typ desc props req items) =>
    if s.isEmpty then .node ("STRING") none none none none
    else if typ = some ("object") ∨ props.isSome then
      .node ("OBJECT") none (some (convertPropsOpt props)) (some (req.getD [])) none
    else if typ = some ("array") then
      .node ("ARRAY") (some (desc.getD (""))) none none (some (convertItems items))
    else
      .node (bePrimMap typ) (some (desc.getD (""))) none none none

/-- The dict comprehension over `schema.get("properties", {})` in the
object branch: translating the `.getD []` of the optional key. -/
def convertPropsOpt : Option (List (String × MCPSchema)) → List (String × GSchema)
  | some l => convertProps l
  | none => []

/-- The dict comprehension over a property list. -/
def convertProps : List (String × MCPSchema) → List (String × GSchema)
  | [] => []
  | (k, v) :: rest => (k, convert_mcp_to_gemini_schema v) :: convertProps rest

/-- The `convert_mcp_to_gemini_schema(schema.get("items", {}))`: with the key
absent the empty dict is fed to the recursive call, whose result is
`{"type": "STRING"}`. -/
def convertItems : Option MCPSchema → GSchema
  | some it => convert_mcp_to_gemini_schema it
  | none => .node ("STRING") none none none none

end

/-- The `type_mapping` dict of the flat translators in `agent_server.py`
and `mcp_client.py`, looked up with default `"STRING"`. -/
def flatTypeMapping (t : String) : String :=
  if t = "string" then ("STRING")
  else if t = "integer" then ("INTEGER")
  else if t = "number" then ("NUMBER")
  else if t = "boolean" then ("BOOLEAN")
  else if t = "array" then ("ARRAY")
  else if t = "object" then ("OBJECT")
  else ("STRING")

/-- The `convert_mcp_to_gemini_schema` of `agent_server.py` and
`mcp_client.py` (identical bodies): translates only the top level — each
top-level property becomes `{"type": mapped, "description": desc}` with
its nested `properties`/`items` discarded, wrapped in an OBJECT node with
the required list. -/
def convert_mcp_to_gemini_schema_flat (s : MCPSchema) : GSchema :=
  match s with
  | .node _ _ props req _ =>
    .node ("OBJECT") none
      (some ((props.getD []).map (fun kv =>
        match kv.2 with
        | .node ptyp pdesc _ _ _ =>
          (kv.1, GSchema.node (flatTypeMapping (ptyp.getD ("string")))
            (some (pdesc.getD (""))) none none none))))
      (some (req.getD [])) none

/-- One step down a schema tree: into a named property of an object node,
or into the item schema of an array node. -/
inductive SchemaStep where
  | prop (k : String)
  | item
  deriving Repr, DecidableEq

/-- Navigate one step in a source schema. -/
def MCPSchema.nav : MCPSchema → SchemaStep → Option MCPSchema
  | .node _ _ props _ _, .prop k => (props.getD []).lookup k
  | .node _ _ _ _ items, .item => items

/-- Navigate a path in a source schema. -/
def MCPSchema.navPath : MCPSchema → List SchemaStep → Option MCPSchema
  | s, [] => some s
  | s, st :: p =>
    match s.nav st with
    | some s' => s'.navPath p
    | none => none

/-- Navigate one step in a translated schema. -/
def GSchema.nav : GSchema → SchemaStep → Option GSchema
  | .node _ _ props _ _, .prop k => (props.getD []).lookup k
  | .node _ _ _ _ items, .item => items

/-- Navigate a path in a translated schema. -/
def GSchema.navPath : GSchema → List SchemaStep → Option GSchema
  | s, [] => some s
  | s, st :: p =>
    match s.nav st with
    | some s' => s'.navPath p
    | none => none

/-- The declared type string of a translated node. -/
def GSchema.typeTag : GSchema → String
  | .node t _ _ _ _ => t

/-- The description slot of a translated node. -/
def GSchema.descriptionF : GSchema → Option String
  | .node _ d _ _ _ => d

/-- The required slot of a translated node. -/
def GSchema.requiredF : GSchema → Option (List String)
  | .node _ _ _ r _ => r

/-- Well-formed provider-neutral schemas: a `properties` key only on
nodes declared `object` (or with no declared type), an `items` key only on
nodes declared `array` that carry no `properties` key, recursively.  This
rules out the contradictory nodes (e.g. `type: "array"` together with
`properties`) on which the declared-type table of the claim is ambiguous. -/
inductive MCPSchema.WF : MCPSchema → Prop
  | node {typ desc props req items} :
      (props.isSome → typ = some ("object") ∨ typ = none) →
      (items.isSome → typ = some ("array") ∧ props = none) →
      (∀ k v, (props.getD []).lookup k = some v → MCPSchema.WF v) →
      (∀ v, items = some v → MCPSchema.WF v) →
      MCPSchema.WF (.node typ desc props req items)

/-- The fixed primitive table of the claim, applied to a source node:
string↦STRING, integer↦INTEGER, number↦NUMBER, boolean↦BOOLEAN,
array↦ARRAY, object↦OBJECT (a node carrying `properties` counts as an
object; untyped or unrecognized ↦ STRING). -/
def mappedTypeTag : MCPSchema → String
  | s@(.node typ _ props _ _) =>
    if s.isEmpty then ("STRING")
    else if typ = some ("object") ∨ props.isSome then ("OBJECT")
    else if typ = some ("array") then ("ARRAY")
    else bePrimMap typ

/-- What the recursive backend translator preserves besides the type tag:
the required list on object nodes, the description (defaulted to `""`) on
array and primitive nodes; object nodes lose their description. -/
def fieldsPreserved : MCPSchema → GSchema → Prop
  | s@(.node typ _ props req _), g =>
    if s.isEmpty then g.requiredF = none
    else if typ = some ("object") ∨ props.isSome then
      g.requiredF = some (req.getD []) ∧ g.descriptionF = none
    else
      match s with
      | .node _ desc _ _ _ => g.descriptionF = some (desc.getD (""))

/-! ### Model fallback (`mcp_client.py`) -/

/-- The fixed `MODEL_PRIORITY` list (identical in `mcp_client.py` and
`agent_server.py`). -/
def MODEL_PRIORITY : List String :=
  ["gemini-3-flash-preview",
   "gemini-2.5-flash",
   "gemini-exp-1206",
   "gemini-2.0-flash",
   "gemini-2.0-flash-001",
   "gemini-2.5-flash-lite",
   "gemini-2.0-flash-lite",
   "gemini-2.0-flash-lite-001",
   "gemini-2.0-flash-lite-preview-02-05"]

/-- The `for model_name in MODEL_PRIORITY` scan of `create_chat_session`:
skip excluded models, attempt `client.chats.create`, return the first
model name that instantiates without error, else `(None, None)`. -/
def createFrom (createOk : String → Bool) (excluded : List String) :
    List String → Option String
  | [] => none
  | m :: rest =>
    if excluded.contains m then createFrom createOk excluded rest
    else if createOk m then some m
    else createFrom createOk excluded rest

/-- The `create_chat_session(excluded_models, history)` of `mcp_client.py`:
which model (if any) the new chat session is bound to.  `createOk` is the
environment: whether `client.chats.create` succeeds for a given model. -/
def create_chat_session (createOk : String → Bool) (excluded : List String) :
    Option String :=
  createFrom createOk excluded MODEL_PRIORITY

/-- The external behaviour `safe_send_message` depends on: whether
`client.chats.create` succeeds for a model, and what `chat.send_message`
does on a session bound to a model (a failed model is excluded and never
retried, so one outcome per model suffices for a single fallback
episode). -/
structure LLMEnv where
  createOk : String → Bool
  sendResult : String → Except String String

/-- The `safe_send_message(message_content)` of `mcp_client.py`: send on the
current chat; on failure, exclude the current model, re-create a session
over the remaining priority list with the conversation history, and retry;
when no replacement session can be created, re-raise the triggering send
error (`raise e`).  The source loop is `while True`; `fuel` bounds the
number of iterations the embedding unrolls, and the theorems quantify over
sufficient fuel (each iteration permanently excludes one more viable
model, so `MODEL_PRIORITY.length + 1` always suffices). -/
def safe_send_message (env : LLMEnv) :
    Nat → String → List String → Except String String
  | 0, cur, _ =>
    match env.sendResult cur with
    | .ok r => .ok r
    | .error e => .error e
  | fuel + 1, cur, excluded =>
    match env.sendResult cur with
    | .ok r => .ok r
    | .error e =>
      match create_chat_session env.createOk (excluded ++ [cur]) with
      | some m2 => safe_send_message env fuel m2 (excluded ++ [cur])
      | none => .error e

/-! ### Gemini responses, the dispatch loops, and command scraping -/

/-- A function call issued by the model: `part.function_call`. -/
structure FunctionCall where
  name : String
  args : List (String × Json)
  deriving Repr

/-- One part of a model response: text or a function call (the loops test
`part.function_call` and `part.text`). -/
inductive GPart where
  | text (s : String)
  | functionCall (fc : FunctionCall)
  deriving Repr

/-- The `response.candidates[0].content.parts`, flattened; `[]` models a
response with no candidates or no parts (the loops break on it). -/
abbrev GResponse := List GPart

/-- The `for part in parts: if part.function_call:` scan: the first
function-call part, which each loop iteration acts on before breaking out
of the `for`. -/
def firstFunctionCall : GResponse → Option FunctionCall
  | [] => none
  | .text _ :: rest => firstFunctionCall rest
  | .functionCall fc :: _ => some fc

/-- The payload of a `FunctionResponse` part fed back to the model:
`{"result": ...}` on success, `{"error": ...}` on a tool failure. -/
inductive FnPayload where
  | result (s : String)
  | error (s : String)
  deriving Repr, DecidableEq

/-- A `FunctionResponse` message sent back into the chat session. -/
structure FnResponse where
  name : String
  payload : FnPayload
  deriving Repr, DecidableEq

/-- The `CLIENT_TOOL_NAMES` of `agent_server.py`. -/
def CLIENT_TOOL_NAMES : List String :=
  ["highlight", "view", "toggle_layer", "clear_highlight", "click"]

/-- The intercepted client command built in `agent_server.py`:
`cmd = {"command": fc.name}; cmd.update(fc.args)`. -/
def clientCmdOf (fc : FunctionCall) : Json :=
  Json.obj (dictUpdate [("command", Json.str fc.name)] fc.args)

/-- The external behaviour a dispatch loop depends on: the model's reply
to the k-th fed-back function response, and the outcome of executing a
tool on the MCP session (`session.call_tool`). -/
structure AgentEnv where
  model : Nat → GResponse
  callTool : String → List (String × Json) → Except String String

/-- Outcome of `agent_server.py`'s tool loop: the final response plus the
accumulated client command queue, the function responses fed back to the
model, and the server-side tool invocations performed; `fuelOut` marks a
run still looping after the given number of rounds (the source loop is an
unbounded `while True`). -/
inductive AgentOut where
  | done (final : GResponse) (cmds : List Json) (fed : List FnResponse)
      (executed : List (String × List (String × Json)))
  | fuelOut (cmds : List Json) (fed : List FnResponse)
      (executed : List (String × List (String × Json)))
  deriving Repr

/-- Whether the loop reached its DONE state (a response with no function
calls) within the unrolled rounds. -/
def AgentOut.isDone : AgentOut → Bool
  | .done _ _ _ _ => true
  | .fuelOut _ _ _ => false

/-- Number of function responses fed back to the model. -/
def AgentOut.fedCount : AgentOut → Nat
  | .done _ _ fed _ => fed.length
  | .fuelOut _ fed _ => fed.length

/-- The client command queue accumulated by the loop. -/
def AgentOut.commands : AgentOut → List Json
  | .done _ cmds _ _ => cmds
  | .fuelOut cmds _ _ => cmds

/-- The `while True` tool loop of `agent_server.py`'s `chat_endpoint`
(lines 296–356): find the first function call of the current response;
none ⇒ DONE.  A client tool is intercepted: the command is appended to the
queue and a synthetic success acknowledgment is sent to the model.  Any
other tool is executed on the MCP session; its output — or, on an
exception, its error text — is sent back as a function response.  `k`
indexes the model's replies; `fuel` unrolls the unbounded source loop. -/
def agent_tool_loop (env : AgentEnv) :
    Nat → Nat → GResponse → List Json → List FnResponse →
    List (String × List (String × Json)) → AgentOut
  | 0, _, _, cmds, fed, ex => .fuelOut cmds fed ex
  | fuel + 1, k, resp, cmds, fed, ex =>
    match firstFunctionCall resp with
    | none => .done resp cmds fed ex
    | some fc =>
      if CLIENT_TOOL_NAMES.contains fc.name then
        agent_tool_loop env fuel (k + 1) (env.model k)
          (cmds ++ [clientCmdOf fc])
          (fed ++ [⟨fc.name, .result ("Command sent to client UI.")⟩]) ex
      else
        match env.callTool fc.name fc.args with
        | .ok out =>
          agent_tool_loop env fuel (k + 1) (env.model k) cmds
            (fed ++ [⟨fc.name, .result out⟩]) (ex ++ [(fc.name, fc.args)])
        | .error e =>
          agent_tool_loop env fuel (k + 1) (env.model k) cmds
            (fed ++ [⟨fc.name, .error e⟩]) (ex ++ [(fc.name, fc.args)])

/-- Outcome of `mcp_client.py`'s inner tool loop. -/
inductive ClientLoopOut where
  | done (final : GResponse) (fed : List FnResponse)
  | fuelOut (fed : List FnResponse)
  deriving Repr

/-- Function responses fed back to the model by `llm_tool_loop`. -/
def ClientLoopOut.fed : ClientLoopOut → List FnResponse
  | .done _ fed => fed
  | .fuelOut fed => fed

/-- Whether `llm_tool_loop` reached DONE within the unrolled rounds. -/
def ClientLoopOut.isDone : ClientLoopOut → Bool
  | .done _ _ => true
  | .fuelOut _ => false

/-- The inner `while True` tool loop of `llm_mode` in `mcp_client.py`
(lines 241–280): on a successful tool call the result is fed back and the
next response processed; but on a tool exception the handler only prints
and breaks out of the `for` — nothing is fed back, and since
`has_tool_call` is already true the `while` re-enters with the *same*
response and re-executes the same call. -/
def llm_tool_loop (env : AgentEnv) :
    Nat → Nat → GResponse → List FnResponse → ClientLoopOut
  | 0, _, _, fed => .fuelOut fed
  | fuel + 1, k, resp, fed =>
    match firstFunctionCall resp with
    | none => .done resp fed
    | some fc =>
      match env.callTool fc.name fc.args with
      | .ok out =>
        llm_tool_loop env fuel (k + 1) (env.model k)
          (fed ++ [⟨fc.name, .result out⟩])
      | .error _ => llm_tool_loop env fuel k resp fed

/-- Text extraction from the final response: concatenate the `text` of
every part that has one. -/
def extractText (r : GResponse) : String :=
  r.foldl (fun acc p => match p with | .text t => acc ++ t | _ => acc) ""

/-- The legacy JSON-scraping block of `chat_endpoint` (lines 366–393).
`re.findall` and `json.loads` are Python stdlib: `blockParses` is the list
of `json.loads` outcomes on the fenced ```json code blocks found in the
final text, in order (`none` = parse failure), and `rawParses` likewise
for the bare `{...}` regex matches.  Strategy 1 runs unconditionally:
each parsed list is extended onto the command queue and each parsed dict
appended.  Strategy 2 runs only if the command list (tool-call commands
plus strategy-1 additions) is still empty, and keeps only dicts carrying a
`"command"` key. -/
def scrapeBlocks (cmds : List Json) (blockParses : List (Option Json)) :
    List Json :=
  blockParses.foldl (fun acc p =>
    match p with
    | some (.arr l) => acc ++ l
    | some (.obj fs) => acc ++ [.obj fs]
    | _ => acc) cmds

/-- Strategy 2 of the same block: each bare `{...}` match that parses to a
dict carrying a `"command"` key is appended. -/
def scrapeRaw (cmds : List Json) (rawParses : List (Option Json)) : List Json :=
  rawParses.foldl (fun acc p =>
    match p with
    | some (.obj fs) =>
      if (fs.lookup ("command")).isSome then acc ++ [.obj fs] else acc
    | _ => acc) cmds

/-- The whole legacy block: strategy 1 always runs; strategy 2 runs only
`if not commands:` — i.e. only when the queue (tool-call commands plus
strategy-1 additions) is still empty. -/
def legacy_scrape (cmds : List Json) (blockParses rawParses : List (Option Json)) :
    List Json :=
  let cmds1 := scrapeBlocks cmds blockParses
  if cmds1.isEmpty then scrapeRaw cmds1 rawParses else cmds1

/-- The final `(text, commands)` assembly of `chat_endpoint`: run the tool
loop from the initial model response, extract the final text, then apply
the legacy scraping to the tool-call command queue. -/
structure ChatOutcome where
  text : String
  commands : List Json
  fed : List FnResponse
  executed : List (String × List (String × Json))
  completed : Bool
  deriving Repr

/-- The `chat_endpoint`'s post-fallback body: dispatch loop plus final-text
extraction plus legacy scraping (only a completed loop reaches them). -/
def chat_endpoint_run (env : AgentEnv) (fuel : Nat) (resp0 : GResponse)
    (blockParses rawParses : List (Option Json)) : ChatOutcome :=
  match agent_tool_loop env fuel 0 resp0 [] [] [] with
  | .done final cmds fed ex =>
    { text := extractText final
      commands := legacy_scrape cmds blockParses rawParses
      fed := fed, executed := ex, completed := true }
  | .fuelOut cmds fed ex =>
    { text := "", commands := cmds, fed := fed, executed := ex
      completed := false }

/-- An environment whose model issues a `count_objects` call in every
response (the pathological model of the termination claim), with every
tool call succeeding. -/
def alwaysCallEnv : AgentEnv :=
  { model := fun _ => [.functionCall ⟨"count_objects", []⟩]
    callTool := fun _ _ => .ok ("{}") }

/-- An environment whose tool calls always fail, for the error-handling
counterexample; the model never gets anything to answer. -/
def failingToolEnv : AgentEnv :=
  { model := fun _ => []
    callTool := fun _ _ => .error ("tool blew up") }

/-! ### The streaming backend (`mcp_server/_mcp_be.py`) -/

/-- A server-sent event emitted by `chat_process` (the `type` field of
each `data:` line, with its payload). -/
inductive Event where
  | status (content : String)
  | textChunk (content : String)
  | toolCall (name : String)
  | toolResult (name : String) (result : String)
  | error (content : String)
  | done
  deriving Repr, DecidableEq

/-- A chat-completions reply (Groq / OpenAI paths): either
`finish_reason == "tool_calls"` with the parsed calls (arguments already
passed through `json.loads`, `{}` on a parse failure), or a final message
with optional content. -/
inductive OaiReply where
  | toolCalls (calls : List FunctionCall)
  | final (content : Option String)
  deriving Repr

/-- How one Gemini/Groq/OpenAI loop iteration sequence ended:
the loop broke normally, a model request raised (propagating to the outer
`except`, which emits the terminal error), or the unrolling fuel for the
unbounded Gemini `while True` ran out with the loop still going. -/
inductive StreamTail where
  | completed
  | failedSend (e : String)
  | outOfFuel
  deriving Repr, DecidableEq

/-- The external behaviour of one `chat_process` run.  `hasKey` covers
`api_key or <PROVIDER>_API_KEY` (and the OpenAI dummy-key-with-base_url
case); `connectStage` is entering `processe_client`/`ClientSession` for a url,
`initStage` is `initialize()` + `list_tools()` returning the tool names;
`gmodel`/`omodel` are the k-th model replies (or the exception a request
raised); `callTool` is `session.call_tool`. -/
structure BackendEnv where
  provider : String
  hasKey : Bool
  moduleAvailable : Bool
  urls : List String
  connectStage : String → Except String Unit
  initStage : String → Except String (List String)
  gmodel : Nat → Except String (List GPart)
  omodel : Nat → Except String OaiReply
  callTool : String → List (String × Json) → Except String String

/-- The `for url in mcp_urls` connection loop: strip, skip empties, emit
the per-stage status events, collect tool names from each reachable
server, and convert each per-url exception into a non-fatal `error` event
(`# Let's continue to allow partial functionality`). -/
def connectPhase (env : BackendEnv) : List String → (List Event × List String)
  | [] => ([], [])
  | url :: rest =>
    let u := url.trim
    if u = "" then connectPhase env rest
    else
      let c1 := Event.status ("Connecting to " ++ u ++ "...")
      match env.connectStage u with
      | .error e =>
        let (evs, tools) := connectPhase env rest
        (c1 :: .error ("Failed to connect to " ++ u ++ ": " ++ e) :: evs, tools)
      | .ok _ =>
        let c2 := Event.status ("Initializing Session for " ++ u ++ "...")
        match env.initStage u with
        | .error e =>
          let (evs, tools) := connectPhase env rest
          (c1 :: c2 :: .error ("Failed to connect to " ++ u ++ ": " ++ e) :: evs,
           tools)
        | .ok names =>
          let c3 := Event.status
            ("Found " ++ toString names.length ++ " tools from " ++ u)
          let (evs, tools) := connectPhase env rest
          (c1 :: c2 :: c3 :: evs, names ++ tools)

/-- The events streamed while consuming one Gemini response: a
`text_chunk` for every part with (truthy) text, a `tool_call` for every
function-call part. -/
def geminiChunkEvents (parts : List GPart) : List Event :=
  parts.filterMap (fun p =>
    match p with
    | .text t => if t = "" then none else some (.textChunk t)
    | .functionCall fc => some (.toolCall fc.name))

/-- The function calls collected from one Gemini response stream. -/
def partsFunctionCalls (parts : List GPart) : List FunctionCall :=
  parts.filterMap (fun p =>
    match p with
    | .text _ => none
    | .functionCall fc => some fc)

/-- Executing one call in the Gemini path: the `Executing ...` status,
then a `tool_result` event on success or a non-fatal `error` event on a
missing session (`tool_to_session.get`) or a raised tool call. -/
def execEventsGemini (tools : List String) (env : BackendEnv)
    (fc : FunctionCall) : List Event :=
  Event.status ("Executing " ++ fc.name ++ "...") ::
  (if tools.contains fc.name then
    match env.callTool fc.name fc.args with
    | .ok out => [.toolResult fc.name out]
    | .error e => [.error ("Error executing tool: " ++ e)]
  else
    [.error ("Error executing tool: No session found for tool " ++ fc.name)])

/-- The Gemini `while True` loop of `chat_process`: stream one response;
with no function calls, break (completed); otherwise execute every call
(feeding the last call's result or error back as the next message) and
request again.  `fuel` unrolls the unbounded loop. -/
def geminiLoop (env : BackendEnv) (tools : List String) :
    Nat → Nat → (List Event × StreamTail)
  | 0, _ => ([], .outOfFuel)
  | fuel + 1, k =>
    match env.gmodel k with
    | .error e => ([], .failedSend e)
    | .ok parts =>
      let evs := geminiChunkEvents parts
      let fcs := partsFunctionCalls parts
      if fcs.isEmpty then (evs, .completed)
      else
        let execEvs := (fcs.map (execEventsGemini tools env)).flatten
        let (evs2, tail) := geminiLoop env tools fuel (k + 1)
        (evs ++ execEvs ++ evs2, tail)

/-- Executing one call in the Groq / OpenAI paths: the `tool_call` event,
the `Executing ...` status, then `tool_result` or a non-fatal `error`
event (the error string is also appended to the conversation as the tool
message). -/
def execEventsOai (tools : List String) (env : BackendEnv)
    (fc : FunctionCall) : List Event :=
  Event.toolCall fc.name :: Event.status ("Executing " ++ fc.name ++ "...") ::
  (if tools.contains fc.name then
    match env.callTool fc.name fc.args with
    | .ok out => [.toolResult fc.name out]
    | .error e => [.error ("Error executing " ++ fc.name ++ ": " ++ e)]
  else
    [.error ("Error executing " ++ fc.name ++ ": No session found for "
      ++ fc.name)])

/-- Result of the Groq / OpenAI `for _ in range(max_turns)` loop, with the
number of chat-completions requests made. -/
structure OaiRun where
  events : List Event
  tail : StreamTail
  requests : Nat
  deriving Repr

/-- The `for _ in range(max_turns)` loop shared by the Groq and OpenAI
paths of `chat_process` (`max_turns = 5` in both): each turn emits the
thinking status and makes one request; `tool_calls` replies execute every
call and continue; a final reply emits its content (if truthy) and breaks;
exhausting the range falls through (completed) — a built-in round-trip
bound. -/
def oaiLoop (env : BackendEnv) (tools : List String) (thinkMsg : String) :
    Nat → Nat → OaiRun
  | 0, _ => { events := [], tail := .completed, requests := 0 }
  | turns + 1, k =>
    let think := Event.status thinkMsg
    match env.omodel k with
    | .error e => { events := [think], tail := .failedSend e, requests := 1 }
    | .ok (.toolCalls calls) =>
      let execEvs := (calls.map (execEventsOai tools env)).flatten
      let rest := oaiLoop env tools thinkMsg turns (k + 1)
      { events := think :: execEvs ++ rest.events, tail := rest.tail
        requests := rest.requests + 1 }
    | .ok (.final content) =>
      { events := think :: (match content with
          | some c => if c = "" then [] else [.textChunk c]
          | none => []),
        tail := .completed, requests := 1 }

/-- The `chat_process` of `mcp_server/_mcp_be.py` as the list of events it
streams.  The second component is whether the generator finished within
the unrolled fuel (the Gemini loop is unbounded; the Groq/OpenAI loops are
bounded by `max_turns = 5` and never exhaust fuel).  Early configuration
failures emit a single terminal `error`; a completed run ends with the
single `done`; a model request that raises propagates to the outer
`except`, which emits the terminal `Backend Error` event. -/
def chat_process (env : BackendEnv) (fuel : Nat) : (List Event × Bool) :=
  let e0 := [Event.status ("Connecting to MCP Server(s)... Provider: "
    ++ env.provider)]
  if env.provider = "gemini" then
    if !env.hasKey then (e0 ++ [.error ("GEMINI_API_KEY not set")], true)
    else
      let (cev, tools) := connectPhase env env.urls
      match geminiLoop env tools fuel 0 with
      | (gev, .completed) => (e0 ++ cev ++ gev ++ [.done], true)
      | (gev, .failedSend e) =>
        (e0 ++ cev ++ gev ++ [.error ("Backend Error: " ++ e)], true)
      | (gev, .outOfFuel) => (e0 ++ cev ++ gev, false)
  else if env.provider = "openai" then
    if !env.moduleAvailable then
      (e0 ++ [.error ("openai module not installed. pip install openai")], true)
    else if !env.hasKey then (e0 ++ [.error ("OPENAI_API_KEY not set")], true)
    else
      let (cev, tools) := connectPhase env env.urls
      let run := oaiLoop env tools ("Thinking...") 5 0
      match run.tail with
      | .completed => (e0 ++ cev ++ run.events ++ [.done], true)
      | .failedSend e =>
        (e0 ++ cev ++ run.events ++ [.error ("Backend Error: " ++ e)], true)
      | .outOfFuel => (e0 ++ cev ++ run.events, false)
  else if env.provider = "groq" then
    if !env.moduleAvailable then
      (e0 ++ [.error ("groq module not installed. pip install groq")], true)
    else if !env.hasKey then (e0 ++ [.error ("GROQ_API_KEY not set")], true)
    else
      let (cev, tools) := connectPhase env env.urls
      let run := oaiLoop env tools ("Thinking (Groq)...") 5 0
      match run.tail with
      | .completed => (e0 ++ cev ++ run.events ++ [.done], true)
      | .failedSend e =>
        (e0 ++ cev ++ run.events ++ [.error ("Backend Error: " ++ e)], true)
      | .outOfFuel => (e0 ++ cev ++ run.events, false)
  else (e0 ++ [.error ("Unknown provider: " ++ env.provider)], true)

/-- A one-shot backend environment for the streaming witness: one server
with one tool, a model that answers with text immediately. -/
def simpleBackendEnv : BackendEnv :=
  { provider := "gemini", hasKey := true, moduleAvailable := true
    urls := ["https://api.example/sse"]
    connectStage := fun _ => .ok ()
    initStage := fun _ => .ok ["count_objects"]
    gmodel := fun _ => .ok [.text ("Hello.")]
    omodel := fun _ => .ok (.final (some ("Hello.")))
    callTool := fun _ _ => .ok ("{}") }

/-- An environment in which every model send fails and no replacement
session can be created, for the exhausted-fallback witness. -/
def allFailEnv : LLMEnv :=
  { createOk := fun _ => false, sendResult := fun _ => .error ("boom") }

/-- The `toggle_layer` call of the specification's scenario:
`action="only"`, `criteria={"layer_name":["piping"]}`. -/
def fcToggle : FunctionCall :=
  { name := "toggle_layer"
    args := [("criteria", .obj [("layer_name", .arr [.str ("piping")])]),
             ("action", .str ("only"))] }

/-- An environment whose model, after the acknowledgment of the
intercepted call, answers with plain text. -/
def toggleEnv : AgentEnv :=
  { model := fun _ => [.text ("Layers updated.")], callTool := fun _ _ => .ok ("") }

/-- A command narrated by the model inside a fenced ```json block of its
final text. -/
def scrapedCmd : Json := .obj [("command", .str ("view"))]

/-- Concrete nested schemas for the translator theorems: an integer leaf
with a description. -/
def exInner : MCPSchema := .node (some ("integer")) (some ("the b field")) none none none

/-- An object-typed property schema holding the leaf under key `b`. -/
def exObjProp : MCPSchema := .node (some ("object")) none (some [("b", exInner)]) none none

/-- A top-level tool input schema with one object-typed property `a`. -/
def exTop : MCPSchema :=
  .node (some ("object")) none (some [("a", exObjProp)]) (some ["a"]) none

/-! ## Theorems -/

/-- Claim **C10**: every shapes-database query tool of the root server
(`count_objects`, `find_objects`, `get_object_by_id`,
`get_object_locations`, `list_available_shapes`, `get_statistics`,
`search_by_criteria`) is read-only: for every argument tuple and every
database, invoking the tool leaves the in-memory `shapes_database`
unchanged — including `search_by_criteria` on unparseable JSON criteria,
which returns the error mapping with the database untouched. -/
theorem queries_read_only (c : QueryCall) (db : ShapesDB) :
    (runQuery c db).2 = db := by
  cases c <;> rfl

/-- Claim **C7 (counterexample)**: the claimed 20-to-50 hard cap on every
listing operation fails on the root server for a 51-record database:
`find_objects` with caller-supplied `limit = 51` returns 51 records, and
`count_objects` returns all 51 records in its `objects` list (it has no
cap at all). -/
theorem find_objects_cap_counterexample :
    (RootServer.find_objects (List.replicate 51 blankShape) none none none 51).results.length
      = 51
    ∧ (RootServer.count_objects (List.replicate 51 blankShape) none none none none).objects.length
      = 51 := by
  constructor <;> decide

theorem convertProps_lookup (k : String) :
    ∀ l : List (String × MCPSchema),
      (convertProps l).lookup k = (l.lookup k).map convert_mcp_to_gemini_schema
  | [] => rfl
  | (a, v) :: tl => by
    simp only [convertProps, List.lookup]
    cases h : k == a
    · simpa [h] using convertProps_lookup k tl
    · simp [h]

theorem convert_nav {typ desc props req items} {st : SchemaStep} {s' : MCPSchema}
    (hWF : MCPSchema.WF (.node typ desc props req items))
    (h : MCPSchema.nav (.node typ desc props req items) st = some s') :
    (convert_mcp_to_gemini_schema (.node typ desc props req items)).nav st
      = some (convert_mcp_to_gemini_schema s') ∧ s'.WF := by
  cases hWF with
  | node h1 h2 h3 h4 =>
    cases st with
    | prop k =>
      simp only [MCPSchema.nav] at h
      have hps : props.isSome := by
        cases props with
        | none => simp [List.lookup] at h
        | some l => rfl
      obtain ⟨l, hl⟩ := Option.isSome_iff_exists.mp hps
      subst hl
      have hne : MCPSchema.isEmpty (.node typ desc (some l) req items) = false := by
        simp [MCPSchema.isEmpty]
      refine ⟨?_, h3 k s' h⟩
      simp only [convert_mcp_to_gemini_schema, hne, Bool.false_eq_true, if_false]
      rw [if_pos (Or.inr hps)]
      simp only [GSchema.nav, Option.getD_some, convertPropsOpt]
      rw [convertProps_lookup]
      simp only [Option.getD_some] at h
      rw [h]
      rfl
    | item =>
      simp only [MCPSchema.nav] at h
      obtain ⟨htyp, hprops⟩ := h2 (by simp [h])
      subst hprops
      have hne : MCPSchema.isEmpty (.node typ desc none req items) = false := by
        simp [MCPSchema.isEmpty, htyp]
      refine ⟨?_, h4 s' h⟩
      simp only [convert_mcp_to_gemini_schema, hne, Bool.false_eq_true, if_false]
      rw [if_neg (by simp [htyp]), if_pos htyp]
      simp [GSchema.nav, h, convertItems]

theorem convert_navPath :
    ∀ (p : List SchemaStep) (s : MCPSchema), s.WF → ∀ s', s.navPath p = some s' →
      (convert_mcp_to_gemini_schema s).navPath p
        = some (convert_mcp_to_gemini_schema s') ∧ s'.WF := by
  intro p
  induction p with
  | nil =>
    intro s hWF s' h
    simp only [MCPSchema.navPath, Option.some.injEq] at h
    subst h
    exact ⟨rfl, hWF⟩
  | cons st rest ih =>
    intro s hWF s' h
    cases hn : s.nav st with
    | none => simp [MCPSchema.navPath, hn] at h
    | some s1 =>
      cases s with
      | node typ desc props req items =>
        obtain ⟨hgnav, hWF1⟩ := convert_nav hWF hn
        obtain ⟨h1, h2⟩ := ih s1 hWF1 s'
          (by simpa [MCPSchema.navPath, hn] using h)
        refine ⟨?_, h2⟩
        simp [GSchema.navPath, hgnav, h1]

theorem convert_typeTag (s : MCPSchema) :
    (convert_mcp_to_gemini_schema s).typeTag = mappedTypeTag s := by
  cases s with
  | node typ desc props req items =>
    simp only [convert_mcp_to_gemini_schema, mappedTypeTag]
    split_ifs <;> rfl

theorem convert_fieldsPreserved (s : MCPSchema) :
    fieldsPreserved s (convert_mcp_to_gemini_schema s) := by
  cases s with
  | node typ desc props req items =>
    simp only [fieldsPreserved, convert_mcp_to_gemini_schema]
    split_ifs <;> simp [GSchema.requiredF, GSchema.descriptionF]

theorem exInner_wf : exInner.WF := by
  refine MCPSchema.WF.node ?_ ?_ ?_ ?_
  · intro h; simp at h
  · intro h; simp at h
  · intro k v hv; simp [List.lookup] at hv
  · intro v hv; cases hv

theorem exObjProp_wf : exObjProp.WF := by
  refine MCPSchema.WF.node ?_ ?_ ?_ ?_
  · intro _; exact Or.inl rfl
  · intro h; simp at h
  · intro k v hv
    simp only [Option.getD_some] at hv
    cases hk : (k == "b") with
    | false => simp [List.lookup, hk] at hv
    | true =>
      simp [List.lookup, hk] at hv
      exact hv ▸ exInner_wf
  · intro v hv; cases hv

theorem exTop_wf : exTop.WF := by
  refine MCPSchema.WF.node ?_ ?_ ?_ ?_
  · intro _; exact Or.inl rfl
  · intro h; simp at h
  · intro k v hv
    simp only [Option.getD_some] at hv
    cases hk : (k == "a") with
    | false => simp [List.lookup, hk] at hv
    | true =>
      simp [List.lookup, hk] at hv
      exact hv ▸ exObjProp_wf
  · intro v hv; cases hv

/-- Claim **C3 (counterexample)**: the flat schema translator shared by
`agent_server.py` and `mcp_client.py` does not recurse: on a schema whose
top-level property `a` is an object with nested property `b`, the source
schema reaches the nested node at path `a.b`, but the translated schema
has nothing at that path — the nested property is dropped, so translation
does not happen "at every nesting depth" for these translators. -/
theorem flat_schema_translator_counterexample :
    MCPSchema.navPath exTop [SchemaStep.prop ("a"), SchemaStep.prop ("b")] = some exInner
    ∧ GSchema.navPath (convert_mcp_to_gemini_schema_flat exTop)
        [SchemaStep.prop ("a"), SchemaStep.prop ("b")] = none :=
  ⟨rfl, rfl⟩

/-- Claim **C3 (amended)**: the recursive translator of `mcp_server/_mcp_be.py`
does satisfy the depth-unbounded contract on well-formed schemas: every
node reachable in the source schema is reachable at the same path in the
translation, translated by the same function; its declared type is mapped
through the fixed primitive table (string↦STRING, integer↦INTEGER,
number↦NUMBER, boolean↦BOOLEAN, array↦ARRAY of the translated items,
object↦OBJECT with every property translated, unrecognized↦STRING); the
required list is preserved on object nodes and the description on array
and primitive nodes — but object nodes lose their description, and the
flat translators of `agent_server.py`/`mcp_client.py` translate only the
top level. -/
theorem be_schema_translator_depth (s : MCPSchema) (hWF : s.WF)
    (p : List SchemaStep) (s' : MCPSchema) (h : s.navPath p = some s') :
    (convert_mcp_to_gemini_schema s).navPath p
        = some (convert_mcp_to_gemini_schema s')
    ∧ (convert_mcp_to_gemini_schema s').typeTag = mappedTypeTag s'
    ∧ fieldsPreserved s' (convert_mcp_to_gemini_schema s') := by
  obtain ⟨h1, _⟩ := convert_navPath p s hWF s' h
  exact ⟨h1, convert_typeTag s', convert_fieldsPreserved s'⟩

/-- Witness for `be_schema_translator_depth` at a concrete nested schema
and path. -/
theorem be_schema_translator_depth_witness :
    (convert_mcp_to_gemini_schema exTop).navPath [SchemaStep.prop ("a")]
        = some (convert_mcp_to_gemini_schema exObjProp)
    ∧ (convert_mcp_to_gemini_schema exObjProp).typeTag = mappedTypeTag exObjProp
    ∧ fieldsPreserved exObjProp (convert_mcp_to_gemini_schema exObjProp) :=
  be_schema_translator_depth exTop exTop_wf [SchemaStep.prop ("a")] exObjProp rfl

theorem pyTake_length_le {α : Type} (l : List α) (n : Int) (h : 0 ≤ n) :
    (pyTake l n).length ≤ n.toNat := by
  unfold pyTake
  rw [if_neg (by omega)]
  simp [List.length_take]

theorem pyTake_min50_le {α : Type} (l : List α) (limit : Int) (h : 0 ≤ limit) :
    (pyTake l (pyMin limit 50)).length ≤ 50 := by
  unfold pyMin
  by_cases hc : limit ≤ (50 : Int)
  · rw [if_pos hc]
    calc (pyTake l limit).length ≤ limit.toNat := pyTake_length_le l limit h
      _ ≤ 50 := by omega
  · rw [if_neg hc]
    simpa using pyTake_length_le l 50 (by norm_num)

/-- Claim **C7 (amended)**: the only unconditional hard caps are in
`search_by_criteria` (50 records in the root server, 20 in the deployed
one); the deployed `find_objects` caps at `min(limit, 50)` for every
non-negative caller-supplied limit; but the root `find_objects` and
`get_object_locations` truncate at whatever limit the caller supplies
(defaults 50 and 20 are defaults, not caps), and the root
`count_objects`'s `objects` list is returned uncapped. -/
theorem listing_caps_amended (db : ShapesDB) (sn : Option String)
    (p d : Option Int) (limit : Int) (parsed : Option (List (String × Json))) :
    (0 ≤ limit → (DeployedServer.find_objects db sn p d limit).results.length ≤ 50)
    ∧ (RootServer.search_by_criteria db parsed).resultsLength ≤ 50
    ∧ (DeployedServer.search_by_criteria db parsed).resultsLength ≤ 20
    ∧ (0 ≤ limit →
        (RootServer.find_objects db sn p d limit).results.length ≤ limit.toNat)
    ∧ (0 ≤ limit →
        (RootServer.get_object_locations db sn limit).results.length ≤ limit.toNat) := by
  refine ⟨?_, ?_, ?_, ?_, ?_⟩
  · intro h
    simp only [DeployedServer.find_objects, List.length_map]
    exact pyTake_min50_le _ limit h
  · cases parsed with
    | none => simp [RootServer.search_by_criteria, RootServer.SearchResult.resultsLength]
    | some fields =>
      simp only [RootServer.search_by_criteria, RootServer.SearchResult.resultsLength,
        List.length_map, List.length_take]
      exact min_le_left _ _
  · cases parsed with
    | none => simp [DeployedServer.search_by_criteria, DeployedServer.SearchResult.resultsLength]
    | some fields =>
      simp only [DeployedServer.search_by_criteria, DeployedServer.SearchResult.resultsLength,
        List.length_map, List.length_take]
      exact min_le_left _ _
  · intro h
    simp only [RootServer.find_objects, List.length_map]
    exact pyTake_length_le _ limit h
  · intro h
    simp only [RootServer.get_object_locations, List.length_map]
    exact pyTake_length_le _ limit h

/-- Witness for `listing_caps_amended` at a concrete oversized database
and limit. -/
theorem listing_caps_amended_witness :
    (0 : Int) ≤ 1000
    ∧ (DeployedServer.find_objects (List.replicate 60 blankShape) none none none
        1000).results.length ≤ 50 :=
  ⟨by norm_num,
   (listing_caps_amended (List.replicate 60 blankShape) none none none 1000 none).1
     (by norm_num)⟩

theorem createFrom_eq_find (c : String → Bool) (ex : List String) :
    ∀ l : List String,
      createFrom c ex l = l.find? (fun m => !(ex.contains m) && c m) := by
  intro l
  induction l with
  | nil => rfl
  | cons a t ih =>
    rw [createFrom]
    by_cases hex : ex.contains a = true
    · have hmem : a ∈ ex := by simpa using hex
      rw [if_pos hex, List.find?_cons_of_neg _ (by simp [hmem]), ih]
    · have hnmem : a ∉ ex := by simpa using hex
      rw [if_neg hex]
      by_cases hc : c a = true
      · rw [if_pos hc, List.find?_cons_of_pos _ (by simp [hnmem, hc])]
      · have hcf : c a = false := by simpa using hc
        rw [if_neg hc, List.find?_cons_of_neg _ (by simp [hnmem, hcf]), ih]

theorem createFrom_spec (c : String → Bool) (ex : List String) :
    ∀ (l : List String) (m : String), createFrom c ex l = some m →
      m ∈ l ∧ ex.contains m = false ∧ c m = true := by
  intro l
  induction l with
  | nil => intro m h; cases h
  | cons a t ih =>
    intro m h
    rw [createFrom] at h
    by_cases hex : ex.contains a = true
    · rw [if_pos hex] at h
      obtain ⟨h1, h2, h3⟩ := ih m h
      exact ⟨List.mem_cons_of_mem a h1, h2, h3⟩
    · rw [if_neg hex] at h
      by_cases hc : c a = true
      · rw [if_pos hc] at h
        cases h
        exact ⟨List.mem_cons_self a t, by simpa using hex, hc⟩
      · rw [if_neg hc] at h
        obtain ⟨h1, h2, h3⟩ := ih m h
        exact ⟨List.mem_cons_of_mem a h1, h2, h3⟩

/-- Claim **C5**: session creation scans the fixed priority list in order and
returns the first model that is neither excluded nor fails to
instantiate — exactly `List.find?` of "non-excluded and instantiates" over
`MODEL_PRIORITY`, for every excluded set and every instantiation
behaviour; so it never selects a later model while an earlier viable one
exists, and it succeeds whenever any viable model exists. -/
theorem model_fallback_priority_order (createOk : String → Bool)
    (excluded : List String) :
    create_chat_session createOk excluded
      = MODEL_PRIORITY.find? (fun m => !(excluded.contains m) && createOk m) :=
  createFrom_eq_find createOk excluded MODEL_PRIORITY

theorem filter_exclude_mono (ex2 : List String) (m2 : String) (l : List String) :
    (l.filter fun m => !((ex2 ++ [m2]).contains m)).length
      ≤ (l.filter fun m => !(ex2.contains m)).length := by
  apply List.Sublist.length_le
  apply List.monotone_filter_right
  intro a ha
  simp at ha ⊢
  tauto

theorem filter_exclude_strict (ex2 : List String) (m2 : String)
    (hnex : ex2.contains m2 = false) :
    ∀ l : List String, m2 ∈ l →
      (l.filter fun m => !((ex2 ++ [m2]).contains m)).length
        < (l.filter fun m => !(ex2.contains m)).length := by
  have hnmem : m2 ∉ ex2 := by simpa using hnex
  intro l hmem
  induction l with
  | nil => cases hmem
  | cons a t ih =>
    rw [List.filter_cons, List.filter_cons]
    by_cases hqa : a ∈ ex2
    · have h1 : (!((ex2 ++ [m2]).contains a)) = false := by simp [hqa]
      have h2 : (!(ex2.contains a)) = false := by simp [hqa]
      have hmt : m2 ∈ t := by
        cases List.mem_cons.mp hmem with
        | inl heq => exact absurd (heq ▸ hqa) hnmem
        | inr h => exact h
      rw [if_neg (by rw [h1]; decide), if_neg (by rw [h2]; decide)]
      exact ih hmt
    · by_cases ham : a = m2
      · have h1 : (!((ex2 ++ [m2]).contains a)) = false := by simp [ham]
        have h2 : (!(ex2.contains a)) = true := by simp [hqa]
        have hmono := filter_exclude_mono ex2 m2 t
        rw [if_neg (by rw [h1]; decide), if_pos h2]
        simp only [List.length_cons]
        omega
      · have h1 : (!((ex2 ++ [m2]).contains a)) = true := by simp [hqa, ham]
        have h2 : (!(ex2.contains a)) = true := by simp [hqa]
        have hmt : m2 ∈ t := by
          cases List.mem_cons.mp hmem with
          | inl heq => exact absurd heq.symm ham
          | inr h => exact h
        have hlt := ih hmt
        rw [if_pos h1, if_pos h2]
        simp only [List.length_cons]
        omega

/-- Claim **C6**: `safe_send_message` never swallows a terminal exhaustion: for
every environment and every error result (with enough fuel to cover the
source's unbounded retry loop — each iteration permanently excludes one
more viable model), the surfaced error is the underlying error of the
failed send whose fallback attempt found no remaining model:
`raise e` re-raises exactly the triggering send error. -/
theorem safe_send_reraises (env : LLMEnv) :
    ∀ (fuel : Nat) (cur : String) (excluded : List String) (e : String),
      (MODEL_PRIORITY.filter fun m => !((excluded ++ [cur]).contains m)).length < fuel →
      safe_send_message env fuel cur excluded = .error e →
      ∃ m ex2, env.sendResult m = .error e
        ∧ create_chat_session env.createOk (ex2 ++ [m]) = none := by
  intro fuel
  induction fuel with
  | zero => intro cur ex e hlt _; omega
  | succ f ih =>
    intro cur ex e hlt h
    rw [safe_send_message] at h
    cases hs : env.sendResult cur with
    | ok r => rw [hs] at h; cases h
    | error e0 =>
      rw [hs] at h
      cases hc : create_chat_session env.createOk (ex ++ [cur]) with
      | none =>
        rw [hc] at h
        cases h
        exact ⟨cur, ex, hs, hc⟩
      | some m2 =>
        rw [hc] at h
        refine ih m2 (ex ++ [cur]) e ?_ h
        obtain ⟨hmem, hnex, _⟩ :=
          createFrom_spec env.createOk (ex ++ [cur]) MODEL_PRIORITY m2 hc
        have hdec := filter_exclude_strict (ex ++ [cur]) m2 hnex MODEL_PRIORITY hmem
        omega

/-- Witness for `safe_send_reraises`: with every send failing and no
model able to instantiate, the loop returns exactly the triggering
error. -/
theorem safe_send_reraises_witness :
    ∃ m ex2, allFailEnv.sendResult m = .error ("boom")
      ∧ create_chat_session allFailEnv.createOk (ex2 ++ [m]) = none :=
  safe_send_reraises allFailEnv 10 ("gemini-3-flash-preview") [] "boom"
    (by decide) rfl

/-- Claim **C1 (counterexample)**: the dispatch loop of `agent_server.py` is an
unbounded `while True`: against a model that re-issues a `count_objects`
call in every response it has still not reached DONE after 6 tool rounds —
already more than the claimed fixed bound of 5 — and it keeps going (one
fed-back tool result per round, with no cap to stop it). -/
theorem gemini_loop_unbounded_counterexample :
    (agent_tool_loop alwaysCallEnv 6 0 (alwaysCallEnv.model 0) [] [] []).isDone = false
    ∧ (agent_tool_loop alwaysCallEnv 6 0 (alwaysCallEnv.model 0) [] [] []).fedCount = 6 :=
  ⟨rfl, rfl⟩

/-- Claim **C2 (counterexample)**: in `mcp_client.py`'s `llm_mode`, a tool call
that raises does *not* produce a failed ToolResult: after 10 loop
iterations with a deterministically failing tool, zero function responses
have been fed back to the model, and the loop has not reached DONE — the
handler prints, breaks out of the `for`, and the unchanged response is
re-dispatched forever. -/
theorem tool_error_no_feedback_counterexample :
    (llm_tool_loop failingToolEnv 10 0 [.functionCall ⟨"find_objects", []⟩] []).fed = []
    ∧ (llm_tool_loop failingToolEnv 10 0 [.functionCall ⟨"find_objects", []⟩] []).isDone
        = false :=
  ⟨rfl, rfl⟩

theorem scrapeBlocks_split (bp : List (Option Json)) :
    ∀ cmds : List Json, scrapeBlocks cmds bp = cmds ++ scrapeBlocks [] bp := by
  induction bp with
  | nil => intro cmds; simp [scrapeBlocks]
  | cons p rest ih =>
    intro cmds
    have hcons : ∀ c : List Json, scrapeBlocks c (p :: rest)
        = scrapeBlocks ((fun (acc : List Json) (q : Option Json) =>
            match q with
            | some (.arr l) => acc ++ l
            | some (.obj fs) => acc ++ [Json.obj fs]
            | _ => acc) c p) rest := fun _ => rfl
    rw [hcons, hcons]
    cases p with
    | none => simpa using ih cmds
    | some j =>
      cases j with
      | arr l =>
        show scrapeBlocks (cmds ++ l) rest = cmds ++ scrapeBlocks ([] ++ l) rest
        rw [ih (cmds ++ l), List.nil_append, ih l, List.append_assoc]
      | obj fs =>
        show scrapeBlocks (cmds ++ [Json.obj fs]) rest
          = cmds ++ scrapeBlocks ([] ++ [Json.obj fs]) rest
        rw [ih (cmds ++ [Json.obj fs]), List.nil_append, ih [Json.obj fs],
          List.append_assoc]
      | null => simpa using ih cmds
      | bool b => simpa using ih cmds
      | num n => simpa using ih cmds
      | str s => simpa using ih cmds

/-- Claim **C4 (counterexample)**: the fenced-```json``` recovery path is *not*
gated on zero primary commands.  Against a model that issues a real
`toggle_layer` tool call (one command enqueued by the primary mechanism)
and whose final text also contains a ```json block narrating a `view`
command, the endpoint's final command list contains both — the scraped
command is double-counted. -/
theorem scrape_gating_counterexample :
    (agent_tool_loop toggleEnv 5 0 [.functionCall fcToggle] [] [] []).commands
        = [clientCmdOf fcToggle]
    ∧ (chat_endpoint_run toggleEnv 5 [.functionCall fcToggle]
        [some scrapedCmd] []).commands
        = [clientCmdOf fcToggle, scrapedCmd] :=
  ⟨rfl, rfl⟩

/-- Claim **C4 (amended)**: only the bare-brace (strategy-2) recovery path is
gated on an empty command list; the fenced-```json``` (strategy-1) path
always runs.  Whenever the primary tool-call mechanism produced at least
one command, the final list is exactly the primary commands followed by
whatever the fenced-block path parsed — the raw-brace path contributes
nothing, and every primary command is retained in front. -/
theorem scrape_gating_amended (cmds : List Json) (bp rp : List (Option Json))
    (h : cmds ≠ []) :
    legacy_scrape cmds bp rp = scrapeBlocks cmds bp
    ∧ scrapeBlocks cmds bp = cmds ++ scrapeBlocks [] bp := by
  refine ⟨?_, scrapeBlocks_split bp cmds⟩
  unfold legacy_scrape
  rw [if_neg]
  rw [scrapeBlocks_split bp cmds]
  simp [h]

/-- Witness for `scrape_gating_amended` at the counterexample's inputs. -/
theorem scrape_gating_amended_witness :
    legacy_scrape [clientCmdOf fcToggle] [some scrapedCmd] []
        = scrapeBlocks [clientCmdOf fcToggle] [some scrapedCmd]
    ∧ scrapeBlocks [clientCmdOf fcToggle] [some scrapedCmd]
        = [clientCmdOf fcToggle] ++ scrapeBlocks [] [some scrapedCmd] :=
  scrape_gating_amended [clientCmdOf fcToggle] [some scrapedCmd] []
    (by simp)

theorem dictSet_fresh (pre : List (String × Json)) (k : String) (v : Json)
    (hfresh : ∀ p ∈ pre, p.1 ≠ k) :
    dictSet pre k v = pre ++ [(k, v)] := by
  unfold dictSet
  rw [if_neg]
  simp only [List.any_eq_true, decide_eq_true_eq, not_exists, not_and]
  exact fun p hp => hfresh p hp

theorem dictUpdate_fresh :
    ∀ (kvs pre : List (String × Json)),
      (∀ kv ∈ kvs, ∀ p ∈ pre, p.1 ≠ kv.1) →
      (kvs.map Prod.fst).Nodup →
      dictUpdate pre kvs = pre ++ kvs := by
  intro kvs
  induction kvs with
  | nil => intro pre _ _; simp [dictUpdate]
  | cons kv rest ih =>
    intro pre hfresh hnodup
    have hcons : dictUpdate pre (kv :: rest)
        = dictUpdate (dictSet pre kv.1 kv.2) rest := rfl
    rw [hcons,
        dictSet_fresh pre kv.1 kv.2 (fun p hp => hfresh kv (List.mem_cons_self _ _) p hp)]
    have hkv : (kv.1, kv.2) = kv := rfl
    rw [hkv]
    have hnotin : kv.1 ∉ rest.map Prod.fst := by
      have := hnodup
      rw [List.map_cons] at this
      exact (List.nodup_cons.mp this).1
    rw [ih (pre ++ [kv]) ?_ ?_]
    · rw [List.append_assoc]
      rfl
    · intro kv' hkv' p hp
      rcases List.mem_append.mp hp with hpre | hsingle
      · exact hfresh kv' (List.mem_cons_of_mem _ hkv') p hpre
      · have : p = kv := List.mem_singleton.mp hsingle
        subst this
        intro heq
        exact hnotin (heq ▸ List.mem_map_of_mem Prod.fst hkv')
    · rw [List.map_cons] at hnodup
      exact (List.nodup_cons.mp hnodup).2

/-- Claim **C8**: a model-issued call whose name is one of the client UI tools
is intercepted: the loop executes nothing server-side (the executed-tools
accumulator is untouched), appends exactly one command — the tool name
under `"command"` followed by exactly the supplied arguments — to the
client command queue, and feeds the model the synthetic acknowledgment
`{"result": "Command sent to client UI."}` before continuing.  (The
argument keys are the tool's declared parameters, so they are distinct
and never named `command`.) -/
theorem client_tool_interception (env : AgentEnv) (fuel k : Nat)
    (resp : GResponse) (cmds : List Json) (fed : List FnResponse)
    (ex : List (String × List (String × Json))) (fc : FunctionCall)
    (hfc : firstFunctionCall resp = some fc)
    (hclient : CLIENT_TOOL_NAMES.contains fc.name = true)
    (hfresh : ∀ kv ∈ fc.args, kv.1 ≠ "command")
    (hnodup : (fc.args.map Prod.fst).Nodup) :
    agent_tool_loop env (fuel + 1) k resp cmds fed ex
      = agent_tool_loop env fuel (k + 1) (env.model k)
          (cmds ++ [Json.obj (("command", Json.str fc.name) :: fc.args)])
          (fed ++ [⟨fc.name, .result ("Command sent to client UI.")⟩]) ex := by
  have hcmd : clientCmdOf fc = Json.obj (("command", Json.str fc.name) :: fc.args) := by
    unfold clientCmdOf
    rw [dictUpdate_fresh fc.args [("command", Json.str fc.name)]
      (fun kv hkv p hp => by
        have hps : p = ("command", Json.str fc.name) := List.mem_singleton.mp hp
        subst hps
        exact (hfresh kv hkv).symm)
      hnodup]
    rfl
  rw [agent_tool_loop, hfc]
  simp only [hclient, if_true, hcmd]

/-- Witness for `client_tool_interception`: the specification's
`toggle_layer` scenario with `action="only"` and
`criteria={"layer_name":["piping"]}`. -/
theorem client_tool_interception_witness :
    agent_tool_loop toggleEnv (4 + 1) 0 [.functionCall fcToggle] [] [] []
      = agent_tool_loop toggleEnv 4 (0 + 1) (toggleEnv.model 0)
          ([] ++ [Json.obj (("command", Json.str fcToggle.name) :: fcToggle.args)])
          ([] ++ [⟨fcToggle.name, .result ("Command sent to client UI.")⟩]) [] :=
  client_tool_interception toggleEnv 4 0 [.functionCall fcToggle] [] [] [] fcToggle
    rfl rfl (by simp [fcToggle]) (by simp [fcToggle])

theorem connectPhase_no_done (env : BackendEnv) :
    ∀ urls : List String, Event.done ∉ (connectPhase env urls).1 := by
  intro urls
  induction urls with
  | nil => simp [connectPhase]
  | cons url rest ih =>
    rw [connectPhase]
    by_cases hu : url.trim = ""
    · rw [if_pos hu]
      exact ih
    · rw [if_neg hu]
      cases hc : env.connectStage url.trim with
      | error e => simp [ih]
      | ok u =>
        cases hi : env.initStage url.trim with
        | error e => simp [ih]
        | ok names => simp [ih]

theorem geminiChunkEvents_no_done (parts : List GPart) :
    Event.done ∉ geminiChunkEvents parts := by
  simp only [geminiChunkEvents, List.mem_filterMap, not_exists, not_and]
  intro p _ heq
  cases p with
  | text t =>
    by_cases ht : t = ""
    · simp [ht] at heq
    · simp [ht] at heq
  | functionCall fc => simp at heq

theorem execEventsGemini_no_done (tools : List String) (env : BackendEnv)
    (fc : FunctionCall) : Event.done ∉ execEventsGemini tools env fc := by
  rw [execEventsGemini]
  by_cases ht : tools.contains fc.name = true
  · rw [if_pos ht]
    cases hr : env.callTool fc.name fc.args <;> simp
  · rw [if_neg ht]
    simp

theorem geminiLoop_no_done (env : BackendEnv) (tools : List String) :
    ∀ (fuel k : Nat), Event.done ∉ (geminiLoop env tools fuel k).1 := by
  intro fuel
  induction fuel with
  | zero => intro k; simp [geminiLoop]
  | succ f ih =>
    intro k
    rw [geminiLoop]
    cases hg : env.gmodel k with
    | error e => simp
    | ok parts =>
      by_cases hempty : (partsFunctionCalls parts).isEmpty
      · simp only [hempty, if_true]
        exact geminiChunkEvents_no_done parts
      · simp only [hempty, Bool.false_eq_true, if_false]
        simp only [List.mem_append, not_or]
        refine ⟨⟨geminiChunkEvents_no_done parts, ?_⟩, ih (k + 1)⟩
        simp only [List.mem_flatten, not_exists, not_and, List.mem_map]
        rintro l ⟨fc, _, rfl⟩
        exact execEventsGemini_no_done tools env fc

theorem execEventsOai_no_done (tools : List String) (env : BackendEnv)
    (fc : FunctionCall) : Event.done ∉ execEventsOai tools env fc := by
  rw [execEventsOai]
  by_cases ht : tools.contains fc.name = true
  · rw [if_pos ht]
    cases hr : env.callTool fc.name fc.args <;> simp
  · rw [if_neg ht]
    simp

theorem oaiLoop_no_done (env : BackendEnv) (tools : List String)
    (thinkMsg : String) :
    ∀ (turns k : Nat), Event.done ∉ (oaiLoop env tools thinkMsg turns k).events := by
  intro turns
  induction turns with
  | zero => intro k; simp [oaiLoop]
  | succ t ih =>
    intro k
    rw [oaiLoop]
    cases ho : env.omodel k with
    | error e => simp
    | ok reply =>
      cases reply with
      | toolCalls calls =>
        intro h
        rcases List.mem_cons.mp h with h1 | h2
        · cases h1
        rcases List.mem_append.mp h2 with h3 | h4
        · rcases List.mem_flatten.mp h3 with ⟨l, hl, hdl⟩
          rcases List.mem_map.mp hl with ⟨fc, _, rfl⟩
          exact execEventsOai_no_done tools env fc hdl
        · exact ih (k + 1) h4
      | final content =>
        cases content with
        | none => simp
        | some c =>
          by_cases hc : c = ""
          · simp [hc]
          · simp [hc]

theorem terminal_shape {pre : List Event} {x : Event}
    (hx : x = Event.done ∨ ∃ s, x = Event.error s)
    (hpre : ∀ e ∈ pre, e ≠ Event.done) :
    pre ++ [x] ≠ []
    ∧ ((pre ++ [x]).getLast? = some Event.done
        ∨ ∃ s, (pre ++ [x]).getLast? = some (Event.error s))
    ∧ ∀ e ∈ (pre ++ [x]).dropLast, e ≠ Event.done := by
  refine ⟨by simp, ?_, ?_⟩
  · rw [List.getLast?_concat]
    rcases hx with rfl | ⟨s, rfl⟩
    · exact Or.inl rfl
    · exact Or.inr ⟨s, rfl⟩
  · rw [List.dropLast_concat]
    exact hpre

theorem status_prefix_no_done (s : String) :
    ∀ e ∈ [Event.status s], e ≠ Event.done := by
  intro e he
  rw [List.mem_singleton.mp he]
  simp

theorem prefix3_no_done {s : String} {cev gev : List Event}
    (hcev : Event.done ∉ cev) (hgev : Event.done ∉ gev) :
    ∀ e ∈ ([Event.status s] ++ cev) ++ gev, e ≠ Event.done := by
  intro e he
  rcases List.mem_append.mp he with h1 | h2
  · rcases List.mem_append.mp h1 with h0 | hc
    · rw [List.mem_singleton.mp h0]
      simp
    · intro hEq
      rw [hEq] at hc
      exact hcev hc
  · intro hEq
    rw [hEq] at h2
    exact hgev h2

/-- Claim **C9**: every finished `chat_process` stream — successful or failed,
over any provider, connection outcomes, model behaviour and tool
behaviour — is nonempty, ends in exactly one terminal event that is either
`done` or an `error`, and emits no event of any type after it; in
particular `done` never occurs before the final position. -/
theorem stream_terminal_event (env : BackendEnv) (fuel : Nat)
    (hfin : (chat_process env fuel).2 = true) :
    (chat_process env fuel).1 ≠ []
    ∧ ((chat_process env fuel).1.getLast? = some Event.done
        ∨ ∃ s, (chat_process env fuel).1.getLast? = some (Event.error s))
    ∧ ∀ e ∈ (chat_process env fuel).1.dropLast, e ≠ Event.done := by
  simp only [chat_process] at hfin ⊢
  by_cases hp1 : env.provider = "gemini"
  · rw [if_pos hp1] at hfin ⊢
    cases hk : env.hasKey with
    | false =>
      simp only [Bool.not_false, if_true] at hfin ⊢
      exact terminal_shape (Or.inr ⟨_, rfl⟩) (status_prefix_no_done _)
    | true =>
      simp only [Bool.not_true, Bool.false_eq_true, if_false] at hfin ⊢
      rcases hcp : connectPhase env env.urls with ⟨cev, tools⟩
      simp only [hcp] at hfin ⊢
      rcases hgl : geminiLoop env tools fuel 0 with ⟨gev, tail⟩
      simp only [hgl] at hfin ⊢
      have hcev := connectPhase_no_done env env.urls
      rw [hcp] at hcev
      have hgev := geminiLoop_no_done env tools fuel 0
      rw [hgl] at hgev
      cases tail with
      | completed =>
        exact terminal_shape (Or.inl rfl) (prefix3_no_done hcev hgev)
      | failedSend e =>
        exact terminal_shape (Or.inr ⟨_, rfl⟩) (prefix3_no_done hcev hgev)
      | outOfFuel => simp [hk] at hfin
  · rw [if_neg hp1] at hfin ⊢
    by_cases hp2 : env.provider = "openai"
    · rw [if_pos hp2] at hfin ⊢
      cases hm : env.moduleAvailable with
      | false =>
        simp only [Bool.not_false, if_true] at hfin ⊢
        exact terminal_shape (Or.inr ⟨_, rfl⟩) (status_prefix_no_done _)
      | true =>
        simp only [Bool.not_true, Bool.false_eq_true, if_false] at hfin ⊢
        cases hk : env.hasKey with
        | false =>
          simp only [Bool.not_false, if_true] at hfin ⊢
          exact terminal_shape (Or.inr ⟨_, rfl⟩) (status_prefix_no_done _)
        | true =>
          simp only [Bool.not_true, Bool.false_eq_true, if_false] at hfin ⊢
          rcases hcp : connectPhase env env.urls with ⟨cev, tools⟩
          simp only [hcp] at hfin ⊢
          have hcev := connectPhase_no_done env env.urls
          rw [hcp] at hcev
          have hoev := oaiLoop_no_done env tools ("Thinking...") 5 0
          cases htail : (oaiLoop env tools ("Thinking...") 5 0).tail with
          | completed =>
            exact terminal_shape (Or.inl rfl) (prefix3_no_done hcev hoev)
          | failedSend e =>
            exact terminal_shape (Or.inr ⟨_, rfl⟩) (prefix3_no_done hcev hoev)
          | outOfFuel => simp [hm, hk, htail] at hfin
    · rw [if_neg hp2] at hfin ⊢
      by_cases hp3 : env.provider = "groq"
      · rw [if_pos hp3] at hfin ⊢
        cases hm : env.moduleAvailable with
        | false =>
          simp only [Bool.not_false, if_true] at hfin ⊢
          exact terminal_shape (Or.inr ⟨_, rfl⟩) (status_prefix_no_done _)
        | true =>
          simp only [Bool.not_true, Bool.false_eq_true, if_false] at hfin ⊢
          cases hk : env.hasKey with
          | false =>
            simp only [Bool.not_false, if_true] at hfin ⊢
            exact terminal_shape (Or.inr ⟨_, rfl⟩) (status_prefix_no_done _)
          | true =>
            simp only [Bool.not_true, Bool.false_eq_true, if_false] at hfin ⊢
            rcases hcp : connectPhase env env.urls with ⟨cev, tools⟩
            simp only [hcp] at hfin ⊢
            have hcev := connectPhase_no_done env env.urls
            rw [hcp] at hcev
            have hoev := oaiLoop_no_done env tools ("Thinking (Groq)...") 5 0
            cases htail : (oaiLoop env tools ("Thinking (Groq)...") 5 0).tail with
            | completed =>
              exact terminal_shape (Or.inl rfl) (prefix3_no_done hcev hoev)
            | failedSend e =>
              exact terminal_shape (Or.inr ⟨_, rfl⟩) (prefix3_no_done hcev hoev)
            | outOfFuel => simp [hm, hk, htail] at hfin
      · rw [if_neg hp3] at hfin ⊢
        exact terminal_shape (Or.inr ⟨_, rfl⟩) (status_prefix_no_done _)

/-- Witness for `stream_terminal_event`: a one-round Gemini interaction
over one reachable server. -/
theorem stream_terminal_event_witness :
    (chat_process simpleBackendEnv 3).1 ≠ []
    ∧ ((chat_process simpleBackendEnv 3).1.getLast? = some Event.done
        ∨ ∃ s, (chat_process simpleBackendEnv 3).1.getLast?
            = some (Event.error s))
    ∧ ∀ e ∈ (chat_process simpleBackendEnv 3).1.dropLast, e ≠ Event.done :=
  stream_terminal_event simpleBackendEnv 3 rfl

theorem oaiLoop_requests_le (env : BackendEnv) (tools : List String)
    (msg : String) : ∀ (turns k : Nat),
    (oaiLoop env tools msg turns k).requests ≤ turns := by
  intro turns
  induction turns with
  | zero => intro k; simp [oaiLoop]
  | succ t ih =>
    intro k
    rw [oaiLoop]
    cases ho : env.omodel k with
    | error e => simp
    | ok reply =>
      cases reply with
      | toolCalls calls => simpa using ih (k + 1)
      | final content => simp

/-- Claim **C1 (amended)**: only the backend's Groq and OpenAI dispatch loops
enforce a round-trip bound — `max_turns = 5` caps the number of
model↔tool requests at 5 for every environment.  The Gemini dispatch
loops (in `agent_server.py`, `mcp_client.py`, and the backend's Gemini
path) are unbounded `while True` loops: against any model that re-issues
a function call in every response they never reach DONE, however many
rounds are unrolled, instead of stopping at a fixed bound. -/
theorem round_trip_bounds_amended :
    (∀ (env : BackendEnv) (tools : List String) (msg : String) (k : Nat),
        (oaiLoop env tools msg 5 k).requests ≤ 5)
    ∧ (∀ env : AgentEnv, (∀ j, (firstFunctionCall (env.model j)).isSome) →
        ∀ (fuel k : Nat) (resp : GResponse) (cmds : List Json)
          (fed : List FnResponse) (ex : List (String × List (String × Json))),
          (firstFunctionCall resp).isSome →
          (agent_tool_loop env fuel k resp cmds fed ex).isDone = false)
    ∧ (∀ (env : BackendEnv) (tools : List String),
        (∀ j, ∃ parts, env.gmodel j = .ok parts
            ∧ (partsFunctionCalls parts).isEmpty = false) →
        ∀ (fuel k : Nat), (geminiLoop env tools fuel k).2 = .outOfFuel)
    ∧ (∀ env : AgentEnv, (∀ j, (firstFunctionCall (env.model j)).isSome) →
        ∀ (fuel k : Nat) (resp : GResponse) (fed : List FnResponse),
          (firstFunctionCall resp).isSome →
          (llm_tool_loop env fuel k resp fed).isDone = false) := by
  refine ⟨fun env tools msg k => oaiLoop_requests_le env tools msg 5 k, ?_, ?_, ?_⟩
  · intro env hmodel fuel
    induction fuel with
    | zero => intro k resp cmds fed ex _; rfl
    | succ f ih =>
      intro k resp cmds fed ex hsome
      obtain ⟨fc, hfc⟩ := Option.isSome_iff_exists.mp hsome
      simp only [agent_tool_loop, hfc]
      by_cases hcl : CLIENT_TOOL_NAMES.contains fc.name = true
      · rw [if_pos hcl]
        exact ih (k + 1) (env.model k) _ _ _ (hmodel k)
      · rw [if_neg hcl]
        cases hct : env.callTool fc.name fc.args with
        | ok out => exact ih (k + 1) (env.model k) _ _ _ (hmodel k)
        | error e => exact ih (k + 1) (env.model k) _ _ _ (hmodel k)
  · intro env tools hmodel fuel
    induction fuel with
    | zero => intro k; rfl
    | succ f ih =>
      intro k
      obtain ⟨parts, hok, hne⟩ := hmodel k
      rw [geminiLoop, hok]
      simp only [hne, Bool.false_eq_true, if_false]
      rcases hrec : geminiLoop env tools f (k + 1) with ⟨evs2, tail⟩
      have htail := ih (k + 1)
      rw [hrec] at htail
      simpa [hrec] using htail
  · intro env hmodel fuel
    induction fuel with
    | zero => intro k resp fed _; rfl
    | succ f ih =>
      intro k resp fed hsome
      obtain ⟨fc, hfc⟩ := Option.isSome_iff_exists.mp hsome
      simp only [llm_tool_loop, hfc]
      cases hct : env.callTool fc.name fc.args with
      | ok out => exact ih (k + 1) (env.model k) _ (hmodel k)
      | error e => exact ih k resp fed hsome

/-- Witness for `round_trip_bounds_amended`: the pathological always-call
model keeps the `agent_server.py` loop running past any unrolled depth. -/
theorem round_trip_bounds_amended_witness :
    (agent_tool_loop alwaysCallEnv 7 0 (alwaysCallEnv.model 0) [] [] []).isDone
      = false :=
  round_trip_bounds_amended.2.1 alwaysCallEnv (fun _ => rfl) 7 0
    (alwaysCallEnv.model 0) [] [] [] rfl

/-- Claim **C2 (amended)**: in `agent_server.py`'s loop a failing Local/Remote
tool call produces exactly one failed ToolResult — the error text as a
function-response payload — which is fed back to the model while the loop
continues, and the backend's Gemini path likewise absorbs the failure
into one non-fatal `error` event (feeding the error payload onward); but
in `mcp_client.py`'s `llm_mode` a failing tool call feeds nothing back:
the iteration leaves the response, the fed-back messages, and the model
turn untouched, so the same call is re-executed. -/
theorem tool_error_feedback_amended :
    (∀ (env : AgentEnv) (fuel k : Nat) (resp : GResponse) (cmds : List Json)
        (fed : List FnResponse) (ex : List (String × List (String × Json)))
        (fc : FunctionCall) (e : String),
        firstFunctionCall resp = some fc →
        CLIENT_TOOL_NAMES.contains fc.name = false →
        env.callTool fc.name fc.args = .error e →
        agent_tool_loop env (fuel + 1) k resp cmds fed ex
          = agent_tool_loop env fuel (k + 1) (env.model k) cmds
              (fed ++ [⟨fc.name, .error e⟩]) (ex ++ [(fc.name, fc.args)]))
    ∧ (∀ (tools : List String) (env : BackendEnv) (fc : FunctionCall) (e : String),
        tools.contains fc.name = true →
        env.callTool fc.name fc.args = .error e →
        execEventsGemini tools env fc
          = [.status ("Executing " ++ fc.name ++ "..."),
             .error ("Error executing tool: " ++ e)])
    ∧ (∀ (env : AgentEnv) (fuel k : Nat) (resp : GResponse)
        (fed : List FnResponse) (fc : FunctionCall) (e : String),
        firstFunctionCall resp = some fc →
        env.callTool fc.name fc.args = .error e →
        llm_tool_loop env (fuel + 1) k resp fed
          = llm_tool_loop env fuel k resp fed) := by
  refine ⟨?_, ?_, ?_⟩
  · intro env fuel k resp cmds fed ex fc e hfc hcl hct
    simp only [agent_tool_loop, hfc]
    rw [if_neg (by simpa using hcl), hct]
  · intro tools env fc e ht hct
    rw [execEventsGemini, if_pos ht, hct]
  · intro env fuel k resp fed fc e hfc hct
    simp only [llm_tool_loop, hfc]
    rw [hct]

/-- Witness for `tool_error_feedback_amended`: a concrete failing
`find_objects` call in the `agent_server.py` loop appends exactly one
error function response and one executed-call record. -/
theorem tool_error_feedback_amended_witness :
    agent_tool_loop failingToolEnv (3 + 1) 0
        [.functionCall ⟨"find_objects", []⟩] [] [] []
      = agent_tool_loop failingToolEnv 3 (0 + 1) (failingToolEnv.model 0) []
          ([] ++ [⟨"find_objects", .error ("tool blew up")⟩])
          ([] ++ [("find_objects", [])]) :=
  tool_error_feedback_amended.1 failingToolEnv 3 0
    [.functionCall ⟨"find_objects", []⟩] [] [] [] ⟨"find_objects", []⟩
    "tool blew up" rfl rfl rfl
